import Mathlib

/-
Verification of the TabletopInventory character/inventory/currency data
model and its persistence layer, as implemented identically in
`tabletop_inventory.py` and `tabletop_text.py`.

Modelling conventions:
* Python strings are `String`; Python ints are `Int` (unbounded in Python);
  Python floats standing for item weight/value are modelled as `Rat`
  (every literal the UI can produce and every JSON round trip of such a
  value is exact, see the comments at the conversion operation).
* `datetime.now().isoformat()` is modelled by passing the produced
  timestamp string (`now`) as an explicit argument at each call site of
  the clock; `uuid.uuid4()` likewise by explicit fresh-identifier
  arguments (a `uuid4` string is never empty).
* The JSON documents written by `json.dump` and read by `json.load` are
  modelled by the inductive `Json`; a file whose text does not parse as
  JSON is `FileData.invalid`.
* Python dicts (the `characters` registry, the JSON objects) are
  insertion-ordered association lists; assignment to an existing key
  updates in place, a new key is appended, matching CPython semantics.
* The save directory is the `files` field of the manager state: a list of
  (file name, content) pairs in listing order.  Disk I/O faults (caught
  by the source and turned into `False`/`None`) are not representable in
  this model file system, which always succeeds.
* Where CPython's dynamic typing would let a structurally ill-typed JSON
  document (e.g. a numeric `rarity` or a string `level`) flow into a
  type-confused dataclass instance, the typed embedding treats the
  document as failing to load; no claim below depends on such documents.
-/

set_option autoImplicit false

namespace Tabletop

/-- Rarity levels of an item; `ItemRarity(Enum)` in the source. -/
inductive ItemRarity where
  | COMMON
  | UNCOMMON
  | RARE
  | VERY_RARE
  | LEGENDARY
  | ARTIFACT
deriving DecidableEq

/-- The `.name` attribute of a Python enum member. -/
def ItemRarity.name : ItemRarity → String
  | .COMMON => "COMMON"
  | .UNCOMMON => "UNCOMMON"
  | .RARE => "RARE"
  | .VERY_RARE => "VERY_RARE"
  | .LEGENDARY => "LEGENDARY"
  | .ARTIFACT => "ARTIFACT"

/-- Enum lookup `ItemRarity[s]`; the `KeyError` raised on an unknown name
(caught by the surrounding `try` in `load_character`) is `none`. -/
def ItemRarity.ofName (s : String) : Option ItemRarity :=
  if s = "COMMON" then some .COMMON
  else if s = "UNCOMMON" then some .UNCOMMON
  else if s = "RARE" then some .RARE
  else if s = "VERY_RARE" then some .VERY_RARE
  else if s = "LEGENDARY" then some .LEGENDARY
  else if s = "ARTIFACT" then some .ARTIFACT
  else none

/-- The `Item` dataclass.  A constructed Python `Item` always has a
non-empty `id` (its `__post_init__` replaces an empty id by a fresh
`uuid4`); construction sites below receive the fresh id explicitly. -/
structure Item where
  id : String
  name : String
  description : String := ""
  quantity : Int := 1
  weight : Rat := 0
  value : Rat := 0
  rarity : ItemRarity := .COMMON
  equipped : Bool := false
  tags : List String := []
deriving DecidableEq

/-- The `Currency` dataclass. -/
structure Currency where
  platinum : Int := 0
  gold : Int := 0
  silver : Int := 0
  copper : Int := 0
deriving DecidableEq

/-- `Currency.total_in_copper`. -/
def Currency.total_in_copper (c : Currency) : Int :=
  c.copper + (c.silver * 10) + (c.gold * 100) + (c.platinum * 1000)

/-- The `Character` dataclass.  As for `Item`, a constructed Python
`Character` always has a non-empty `id`. -/
structure Character where
  id : String
  name : String
  game_system : String := "Generic"
  level : Int := 1
  inventory : List Item := []
  currency : Currency := {}
  notes : String := ""
  created_at : String
  updated_at : String
deriving DecidableEq

/-- `Character.add_item`: append to the inventory, refresh `updated_at`
with the clock reading `now`. -/
def Character.add_item (c : Character) (item : Item) (now : String) : Character :=
  { c with inventory := c.inventory ++ [item], updated_at := now }

/-- The scan-and-pop loop of `Character.remove_item`: remove the first
item whose id matches, returning it and the remaining list. -/
def removeFirst : List Item → String → Option (Item × List Item)
  | [], _ => none
  | item :: rest, itemId =>
    if item.id = itemId then some (item, rest)
    else
      match removeFirst rest itemId with
      | none => none
      | some (r, rest') => some (r, item :: rest')

/-- `Character.remove_item`: on a match, `updated_at` is refreshed with
the clock reading `now` and the item popped; otherwise `None` is returned
and the character is untouched. -/
def Character.remove_item (c : Character) (itemId : String) (now : String) :
    Option Item × Character :=
  match removeFirst c.inventory itemId with
  | none => (none, c)
  | some (item, inv') =>
    (some item, { c with inventory := inv', updated_at := now })

/-- `Character.total_weight`. -/
def Character.total_weight (c : Character) : Rat :=
  (c.inventory.map (fun item => (item.quantity : Rat) * item.weight)).sum

/-- `Character.total_value`. -/
def Character.total_value (c : Character) : Rat :=
  (c.inventory.map (fun item => (item.quantity : Rat) * item.value)).sum

/-- JSON documents, as produced by `json.dump` / consumed by `json.load`.
`jint` and `jnum` are kept apart because Python's `json` module keeps
integers and floats apart in both directions. -/
inductive Json where
  | jstr : String → Json
  | jint : Int → Json
  | jnum : Rat → Json
  | jbool : Bool → Json
  | jarr : List Json → Json
  | jobj : List (String × Json) → Json

/-- Content of a file in the save directory: a JSON document, or text
that fails to parse. -/
inductive FileData where
  | invalid : FileData
  | jsonContent : Json → FileData

/-- Dict lookup `d[k]` returning `none` for a `KeyError`. -/
def lookupA {α : Type} : List (String × α) → String → Option α
  | [], _ => none
  | (k', v) :: rest, k => if k' = k then some v else lookupA rest k

/-- Dict assignment `d[k] = v`: update in place if the key exists,
append otherwise (CPython insertion-order semantics). -/
def insertA {α : Type} : List (String × α) → String → α → List (String × α)
  | [], k, v => [(k, v)]
  | (k', v') :: rest, k, v =>
    if k' = k then (k, v) :: rest else (k', v') :: insertA rest k v

/-- Dict deletion `del d[k]` / file deletion `os.remove`; removing an
absent key is a no-op (the source guards deletions with an existence
check). -/
def eraseA {α : Type} : List (String × α) → String → List (String × α)
  | [], _ => []
  | (k', v) :: rest, k => if k' = k then rest else (k', v) :: eraseA rest k

/-- Serialization of one item: `asdict` on the `Item` dataclass followed
by the rarity-to-`.name` replacement done in `save_character`. -/
def itemToJson (item : Item) : Json :=
  .jobj [("id", .jstr item.id), ("name", .jstr item.name),
         ("description", .jstr item.description),
         ("quantity", .jint item.quantity), ("weight", .jnum item.weight),
         ("value", .jnum item.value), ("rarity", .jstr item.rarity.name),
         ("equipped", .jbool item.equipped),
         ("tags", .jarr (item.tags.map .jstr))]

/-- Serialization of the currency sub-dictionary produced by `asdict`. -/
def currencyToJson (c : Currency) : Json :=
  .jobj [("platinum", .jint c.platinum), ("gold", .jint c.gold),
         ("silver", .jint c.silver), ("copper", .jint c.copper)]

/-- The full document `save_character` writes: `asdict(character)` with
every item's rarity replaced by its symbolic name, in dataclass field
order. -/
def characterToJson (c : Character) : Json :=
  .jobj [("id", .jstr c.id), ("name", .jstr c.name),
         ("game_system", .jstr c.game_system), ("level", .jint c.level),
         ("inventory", .jarr (c.inventory.map itemToJson)),
         ("currency", currencyToJson c.currency), ("notes", .jstr c.notes),
         ("created_at", .jstr c.created_at), ("updated_at", .jstr c.updated_at)]

/-- Subscript access `j[k]` on a parsed document; any non-dict value or
missing key raises in Python and is caught by `load_character`. -/
def Json.getKey : Json → String → Option Json
  | .jobj kvs, k => lookupA kvs k
  | _, _ => none

/-- Reconstruct the `tags` list; `load_character` stores the parsed list
verbatim, which for the documents written by `save_character` is a list
of strings. -/
def parseStrings : List Json → Option (List String)
  | [] => some []
  | .jstr s :: rest => (parseStrings rest).map (fun l => s :: l)
  | _ => none

/-- Field-by-field reconstruction of one `Item` in `load_character`,
including the string-to-enum rarity conversion (an unknown rarity name
raises a `KeyError` and fails the whole load) and the `__post_init__`
replacement of an empty id by the fresh uuid `fresh`. -/
def itemFromJson (fresh : String) (j : Json) : Option Item :=
  match j.getKey "rarity" with
  | some (.jstr rarityName) =>
    match ItemRarity.ofName rarityName with
    | none => none
    | some rarity =>
      match j.getKey "id", j.getKey "name", j.getKey "description",
            j.getKey "quantity", j.getKey "weight", j.getKey "value",
            j.getKey "equipped", j.getKey "tags" with
      | some (.jstr i), some (.jstr n), some (.jstr d), some (.jint q),
        some (.jnum w), some (.jnum v), some (.jbool e), some (.jarr ts) =>
        match parseStrings ts with
        | some tags =>
          some { id := if i = "" then fresh else i, name := n,
                 description := d, quantity := q, weight := w, value := v,
                 rarity := rarity, equipped := e, tags := tags }
        | none => none
      | _, _, _, _, _, _, _, _ => none
  | _ => none

/-- Field-by-field reconstruction of the `Currency` in `load_character`. -/
def currencyFromJson (j : Json) : Option Currency :=
  match j.getKey "platinum", j.getKey "gold", j.getKey "silver",
        j.getKey "copper" with
  | some (.jint p), some (.jint g), some (.jint s), some (.jint cp) =>
    some { platinum := p, gold := g, silver := s, copper := cp }
  | _, _, _, _ => none

/-- Parse the inventory array item by item; `supply i` is the fresh uuid
`__post_init__` would draw for the i-th constructed item. -/
def parseItems (supply : Nat → String) : Nat → List Json → Option (List Item)
  | _, [] => some []
  | i, j :: rest =>
    match itemFromJson (supply i) j with
    | none => none
    | some item => (parseItems supply (i + 1) rest).map (fun l => item :: l)

/-- The whole deserialization step of `load_character` on a successfully
parsed document: rarity conversion, explicit field-by-field `Character`,
`Item` and `Currency` reconstruction; any missing key fails the load.
`supply 0` is the fresh uuid for the character, `supply (i+1)` for the
i-th item. -/
def characterFromJson (supply : Nat → String) (j : Json) : Option Character :=
  match j.getKey "inventory" with
  | some (.jarr items) =>
    match parseItems supply 1 items with
    | none => none
    | some inv =>
      match j.getKey "id", j.getKey "name", j.getKey "game_system",
            j.getKey "level", j.getKey "notes", j.getKey "created_at",
            j.getKey "updated_at", j.getKey "currency" with
      | some (.jstr i), some (.jstr n), some (.jstr gs), some (.jint lv),
        some (.jstr nt), some (.jstr ca), some (.jstr ua), some cj =>
        match currencyFromJson cj with
        | none => none
        | some cur =>
          some { id := if i = "" then supply 0 else i, name := n,
                 game_system := gs, level := lv, inventory := inv,
                 currency := cur, notes := nt, created_at := ca,
                 updated_at := ua }
      | _, _, _, _, _, _, _, _ => none
  | _ => none

/-- The `CharacterManager` state: the in-memory registry and the save
directory's contents. -/
structure CharacterManager where
  characters : List (String × Character) := []
  files : List (String × FileData) := []

/-- `CharacterManager.create_character`: `freshId` is the `uuid4` drawn
for the new character, `now` the clock reading used by the dataclass
timestamp defaults. -/
def create_character (m : CharacterManager)
    (freshId nm game_system now : String) : CharacterManager × Character :=
  let c : Character :=
    { id := freshId, name := nm, game_system := game_system, level := 1,
      inventory := [], currency := {}, notes := "", created_at := now,
      updated_at := now }
  ({ m with characters := insertA m.characters c.id c }, c)

/-- `CharacterManager.delete_character`. -/
def delete_character (m : CharacterManager) (cid : String) :
    CharacterManager × Bool :=
  if (lookupA m.characters cid).isSome then
    ({ characters := eraseA m.characters cid,
       files := eraseA m.files (cid ++ ".json") }, true)
  else (m, false)

/-- `CharacterManager.save_character`: serialize the registered character
to `<cid>.json`.  The model file system cannot fail, so the caught-I/O
branch returning `False` does not arise. -/
def save_character (m : CharacterManager) (cid : String) :
    CharacterManager × Bool :=
  match lookupA m.characters cid with
  | none => (m, false)
  | some c =>
    ({ m with
       files := insertA m.files (cid ++ ".json")
                  (.jsonContent (characterToJson c)) }, true)

/-- `CharacterManager.load_character`: read the file at `path`, parse and
reconstruct, register the result under its own id; every failure mode
(missing file, unparseable text, structural error) is caught and
surfaced as `none`. -/
def load_character (m : CharacterManager) (path : String)
    (supply : Nat → String) : CharacterManager × Option Character :=
  match lookupA m.files path with
  | some (.jsonContent j) =>
    match characterFromJson supply j with
    | some c => ({ m with characters := insertA m.characters c.id c }, some c)
    | none => (m, none)
  | _ => (m, none)

/-- Python's `str.endswith`, on the character lists of the strings. -/
def strEndsWith (s suffix : String) : Bool := suffix.data.isSuffixOf s.data

/-- The loop of `load_all_characters` over the directory listing:
attempt `load_character` on every `.json` file, keep the successes. -/
def loadAllGo (supply : Nat → Nat → String) :
    Nat → CharacterManager → List String → CharacterManager × List Character
  | _, m, [] => (m, [])
  | i, m, fname :: rest =>
    if strEndsWith fname ".json" then
      let p := load_character m fname (supply i)
      let q := loadAllGo supply (i + 1) p.fst rest
      match p.snd with
      | some c => (q.fst, c :: q.snd)
      | none => (q.fst, q.snd)
    else loadAllGo supply (i + 1) m rest

/-- `CharacterManager.load_all_characters`: scan the directory listing
(non-recursive, in listing order). -/
def load_all_characters (m : CharacterManager) (supply : Nat → Nat → String) :
    CharacterManager × List Character :=
  loadAllGo supply 0 m (m.files.map Prod.fst)

/-- The four denominations of the conversion combo boxes. -/
inductive Denomination where
  | copper
  | silver
  | gold
  | platinum
deriving DecidableEq

/-- The `copper_values` rate table of `convert_currency`. -/
def copperValue : Denomination → Int
  | .copper => 1
  | .silver => 10
  | .gold => 100
  | .platinum => 1000

/-- Read one denomination field. -/
def Currency.get (c : Currency) : Denomination → Int
  | .copper => c.copper
  | .silver => c.silver
  | .gold => c.gold
  | .platinum => c.platinum

/-- Python `int(x)`: truncation toward zero. -/
def pyInt (q : Rat) : Int := if 0 ≤ q then q.floor else q.ceil

/-- The applied branch of `MainWindow.convert_currency` (the `Yes`
reply): subtract `amount` from the `f` field, add `int(result)` to the
`t` field, where `result = amount * rate(f) / rate(t)`.  The source
computes `result` in binary floating point; on the reachable domain
(`amount` from a spin box with range 1..9999, rates 1..1000) that float
division is exact enough that `int(result)` coincides with truncation of
the exact rational quotient, which is what the model uses. -/
def convert_currency (cur : Currency) (amount : Int) (f t : Denomination) :
    Currency :=
  let result : Rat := ((amount * copperValue f : Int) : Rat) / ((copperValue t : Int) : Rat)
  let afterSub : Currency :=
    match f with
    | .copper => { cur with copper := cur.copper - amount }
    | .silver => { cur with silver := cur.silver - amount }
    | .gold => { cur with gold := cur.gold - amount }
    | .platinum => { cur with platinum := cur.platinum - amount }
  match t with
  | .copper => { afterSub with copper := afterSub.copper + pyInt result }
  | .silver => { afterSub with silver := afterSub.silver + pyInt result }
  | .gold => { afterSub with gold := afterSub.gold + pyInt result }
  | .platinum => { afterSub with platinum := afterSub.platinum + pyInt result }

/-- One observable manager operation, for reachability: any call to
`create_character`, `load_character`, `save_character` or
`delete_character` with arbitrary arguments. -/
inductive ManagerStep : CharacterManager → CharacterManager → Prop where
  | create (m : CharacterManager) (freshId nm gs now : String) :
      ManagerStep m (create_character m freshId nm gs now).fst
  | load (m : CharacterManager) (path : String) (supply : Nat → String) :
      ManagerStep m (load_character m path supply).fst
  | save (m : CharacterManager) (cid : String) :
      ManagerStep m (save_character m cid).fst
  | del (m : CharacterManager) (cid : String) :
      ManagerStep m (delete_character m cid).fst

/-- Manager states reachable from a fresh manager (empty registry, any
pre-existing directory contents). -/
inductive ReachableManager : CharacterManager → Prop where
  | init (fs : List (String × FileData)) :
      ReachableManager { characters := [], files := fs }
  | step {m m' : CharacterManager} :
      ReachableManager m → ManagerStep m m' → ReachableManager m'

/-! ## Helper lemmas about the association-list model of Python dicts -/

theorem lookupA_insertA_self {α : Type} (l : List (String × α)) (k : String) (v : α) :
    lookupA (insertA l k v) k = some v := by
  induction l with
  | nil => simp [insertA, lookupA]
  | cons p rest ih =>
    obtain ⟨k', v'⟩ := p
    by_cases h : k' = k
    · simp [insertA, lookupA, h]
    · simp [insertA, lookupA, h, ih]

theorem mem_insertA {α : Type} {l : List (String × α)} {k : String} {v : α}
    {p : String × α} (h : p ∈ insertA l k v) : p = (k, v) ∨ p ∈ l := by
  induction l with
  | nil => exact Or.inl (by simpa [insertA] using h)
  | cons q rest ih =>
    obtain ⟨k', v'⟩ := q
    by_cases hk : k' = k
    · simp only [insertA, if_pos hk, List.mem_cons] at h
      rcases h with h | h
      · exact Or.inl h
      · exact Or.inr (List.mem_cons_of_mem _ h)
    · simp only [insertA, if_neg hk, List.mem_cons] at h
      rcases h with h | h
      · exact Or.inr (h ▸ List.mem_cons_self _ _)
      · rcases ih h with h' | h'
        · exact Or.inl h'
        · exact Or.inr (List.mem_cons_of_mem _ h')

theorem mem_eraseA {α : Type} {l : List (String × α)} {k : String}
    {p : String × α} (h : p ∈ eraseA l k) : p ∈ l := by
  induction l with
  | nil => simp [eraseA] at h
  | cons q rest ih =>
    obtain ⟨k', v'⟩ := q
    by_cases hk : k' = k
    · simp only [eraseA, if_pos hk] at h
      exact List.mem_cons_of_mem _ h
    · simp only [eraseA, if_neg hk, List.mem_cons] at h
      rcases h with h | h
      · exact h ▸ List.mem_cons_self _ _
      · exact List.mem_cons_of_mem _ (ih h)

theorem lookupA_mem {α : Type} {l : List (String × α)} {k : String} {v : α}
    (h : lookupA l k = some v) : (k, v) ∈ l := by
  induction l with
  | nil => simp [lookupA] at h
  | cons q rest ih =>
    obtain ⟨k', v'⟩ := q
    by_cases hk : k' = k
    · simp only [lookupA, if_pos hk] at h
      subst hk
      simp [← Option.some_inj.mp h]
    · simp only [lookupA, if_neg hk] at h
      exact List.mem_cons_of_mem _ (ih h)

theorem lookupA_eq_none_of_not_mem {α : Type} {l : List (String × α)} {k : String}
    (h : k ∉ l.map Prod.fst) : lookupA l k = none := by
  induction l with
  | nil => rfl
  | cons q rest ih =>
    obtain ⟨k', v'⟩ := q
    simp only [List.map_cons, List.mem_cons] at h
    push_neg at h
    rw [lookupA, if_neg (Ne.symm h.1), ih h.2]

theorem lookupA_eraseA_self {α : Type} {l : List (String × α)} {k : String}
    (h : (l.map Prod.fst).Nodup) : lookupA (eraseA l k) k = none := by
  induction l with
  | nil => rfl
  | cons q rest ih =>
    obtain ⟨k', v'⟩ := q
    simp only [List.map_cons, List.nodup_cons] at h
    by_cases hk : k' = k
    · rw [eraseA, if_pos hk]
      exact lookupA_eq_none_of_not_mem (hk ▸ h.1)
    · rw [eraseA, if_neg hk, lookupA, if_neg hk]
      exact ih h.2

/-! ## Helper lemmas about truncation -/

theorem ratFloor_eq_intFloor (q : Rat) : q.floor = ⌊q⌋ := by
  rw [Rat.floor_def', Rat.floor_def]

theorem pyInt_of_nonneg (q : Rat) (h : 0 ≤ q) : pyInt q = ⌊q⌋ := by
  rw [pyInt, if_pos h, ratFloor_eq_intFloor]

/-! ## Sample concrete values used by the witnesses -/

def sampleItem : Item :=
  { id := "item-1", name := "Sword", description := "A blade",
    quantity := 1, weight := 3, value := 15, rarity := .RARE,
    equipped := true, tags := ["weapon", "melee"] }

def sampleItem2 : Item :=
  { id := "item-2", name := "Potion", quantity := 3, weight := 1/2,
    value := 50, rarity := .UNCOMMON, tags := [] }

def sampleChar : Character :=
  { id := "char-1", name := "Alice", game_system := "Generic", level := 3,
    inventory := [sampleItem], currency := { gold := 5, copper := 12 },
    notes := "brave", created_at := "2024-01-01T00:00:00",
    updated_at := "2024-01-02T00:00:00" }

/-! ## C9: total_in_copper -/

/-- C9: for every Currency value with nonnegative integer fields,
`total_in_copper` returns exactly copper + 10·silver + 100·gold +
1000·platinum, with no side effects (the model function is pure). -/
theorem total_in_copper_spec (c : Currency) (hp : 0 ≤ c.platinum)
    (hg : 0 ≤ c.gold) (hs : 0 ≤ c.silver) (hc : 0 ≤ c.copper) :
    c.total_in_copper = c.copper + 10 * c.silver + 100 * c.gold + 1000 * c.platinum := by
  unfold Currency.total_in_copper
  ring

/-- Witness for C9: {platinum 1, gold 2, silver 3, copper 4} totals 1234. -/
theorem total_in_copper_spec_witness :
    (Currency.mk 1 2 3 4).total_in_copper = 1234 := by
  rw [total_in_copper_spec (Currency.mk 1 2 3 4)
    (by decide) (by decide) (by decide) (by decide)]
  decide

/-! ## C7: remove_item on a nonexistent id -/

theorem removeFirst_eq_none {inv : List Item} {iid : String}
    (h : ∀ it ∈ inv, it.id ≠ iid) : removeFirst inv iid = none := by
  induction inv with
  | nil => rfl
  | cons item rest ih =>
    have h1 : item.id ≠ iid := h item (List.mem_cons_self _ _)
    rw [removeFirst, if_neg h1, ih (fun it hit => h it (List.mem_cons_of_mem _ hit))]

/-- C7: for every Character and every id not equal to the id of any item
in its inventory, `remove_item` returns the not-found sentinel (`None`)
and leaves the character — `updated_at` and the inventory sequence
included — exactly as it was. -/
theorem remove_item_not_found (c : Character) (iid now : String)
    (h : ∀ it ∈ c.inventory, it.id ≠ iid) :
    c.remove_item iid now = (none, c) := by
  unfold Character.remove_item
  rw [removeFirst_eq_none h]

/-- Witness for C7: removing an absent id from the sample character. -/
theorem remove_item_not_found_witness :
    sampleChar.remove_item "missing-id" "2024-03-01T00:00:00" = (none, sampleChar) :=
  remove_item_not_found sampleChar "missing-id" "2024-03-01T00:00:00" (by decide)

/-! ## C8: add_item then remove_item of a fresh id -/

theorem removeFirst_append (inv : List Item) (item : Item)
    (h : ∀ it ∈ inv, it.id ≠ item.id) :
    removeFirst (inv ++ [item]) item.id = some (item, inv) := by
  induction inv with
  | nil => simp [removeFirst]
  | cons x rest ih =>
    have hx : x.id ≠ item.id := h x (List.mem_cons_self _ _)
    rw [List.cons_append, removeFirst, if_neg hx,
      ih (fun it hit => h it (List.mem_cons_of_mem _ hit))]

/-- C8: for every Character and every item whose id does not occur in the
current inventory, `add_item` then `remove_item` of that id returns the
item and restores the inventory to exactly its prior sequence, after
which no inventory item carries that id. -/
theorem add_then_remove (c : Character) (item : Item) (now now2 : String)
    (h : ∀ it ∈ c.inventory, it.id ≠ item.id) :
    ((c.add_item item now).remove_item item.id now2).fst = some item ∧
    ((c.add_item item now).remove_item item.id now2).snd.inventory = c.inventory ∧
    ∀ it ∈ ((c.add_item item now).remove_item item.id now2).snd.inventory,
      it.id ≠ item.id := by
  unfold Character.add_item Character.remove_item
  rw [removeFirst_append c.inventory item h]
  exact ⟨rfl, rfl, h⟩

/-- Witness for C8: adding then removing a fresh potion restores the
sample character's inventory. -/
theorem add_then_remove_witness :
    ((sampleChar.add_item sampleItem2 "t1").remove_item sampleItem2.id "t2").fst
      = some sampleItem2 ∧
    ((sampleChar.add_item sampleItem2 "t1").remove_item sampleItem2.id "t2").snd.inventory
      = sampleChar.inventory := by
  have h := add_then_remove sampleChar sampleItem2 "t1" "t2" (by decide)
  exact ⟨h.1, h.2.1⟩

/-! ## C2: applied currency conversion -/

/-- C2: applying a conversion of a nonnegative amount from denomination
`f` to a different denomination `t` decreases the `f` balance by exactly
`amount` and increases the `t` balance by exactly
⌊amount·rate(f)/rate(t)⌋, with no floor-at-zero guard (no hypothesis
about the available balance is needed, so the `f` balance may go
negative). -/
theorem convert_currency_spec (cur : Currency) (amount : Int)
    (f t : Denomination) (hft : f ≠ t) (h0 : 0 ≤ amount) :
    (convert_currency cur amount f t).get f = cur.get f - amount ∧
    (convert_currency cur amount f t).get t =
      cur.get t + ⌊((amount * copperValue f : Int) : Rat) / ((copperValue t : Int) : Rat)⌋ := by
  have hnum : (0 : Rat) ≤ ((amount * copperValue f : Int) : Rat) := by
    have : (0 : Int) ≤ amount * copperValue f :=
      mul_nonneg h0 (by cases f <;> decide)
    exact_mod_cast this
  have hden : (0 : Rat) ≤ ((copperValue t : Int) : Rat) := by
    have : (0 : Int) ≤ copperValue t := by cases t <;> decide
    exact_mod_cast this
  have hq := pyInt_of_nonneg _ (div_nonneg hnum hden)
  cases f <;> cases t <;>
    simp_all [convert_currency, Currency.get, copperValue]

/-- Witness for C2: applying the conversion of 25 copper to gold on an
empty purse subtracts 25 copper (leaving −25) and adds 0 gold. -/
theorem convert_currency_spec_witness :
    (convert_currency {} 25 .copper .gold).copper = -25 ∧
    (convert_currency {} 25 .copper .gold).gold = 0 := by
  have h := convert_currency_spec {} 25 .copper .gold (by decide) (by decide)
  have hfloor :
      ⌊((25 * copperValue .copper : Int) : Rat) / ((copperValue .gold : Int) : Rat)⌋ = 0 := by
    norm_num [copperValue]
  constructor
  · simpa [Currency.get] using h.1
  · have h2 := h.2
    rw [hfloor] at h2
    simpa [Currency.get] using h2

/-! ## C10: save_character is read-only on the in-memory state -/

/-- C10: `save_character`, whether it returns true or false, leaves the
in-memory registry — and with it every registered Character in every
field, each item's rarity still the enum value — completely unchanged;
serialization works on the dictionary produced by `asdict` and only the
file system is written. -/
theorem save_character_frame (m : CharacterManager) (cid : String) :
    (save_character m cid).fst.characters = m.characters := by
  unfold save_character
  cases lookupA m.characters cid <;> rfl

/-! ## C3: which operations refresh updated_at -/

def sampleManager : CharacterManager :=
  { characters := [("char-1", sampleChar)], files := [] }

/-- Counterexample to C3: saving the registered character "char-1" via
`CharacterManager.save_character` leaves its `updated_at` at the
pre-save value "2024-01-02T00:00:00" — `save_character` never reads the
clock, so `updated_at` is not set to the current clock reading. -/
theorem save_character_no_refresh_cex :
    (save_character sampleManager "char-1").snd = true ∧
    lookupA (save_character sampleManager "char-1").fst.characters "char-1"
      = some sampleChar ∧
    sampleChar.updated_at = "2024-01-02T00:00:00" :=
  ⟨rfl, rfl, rfl⟩

/-- C3 amended: `updated_at` is refreshed to the clock reading by every
`add_item` call and by every `remove_item` call that removes an item; a
`remove_item` that finds nothing leaves the character unchanged, and
`CharacterManager.save_character` leaves the whole registry — hence
every registered character's `updated_at` — unchanged (the refresh seen
at save time in the application is done by the presentation layer before
it calls `save_character`). -/
theorem updated_at_refresh_spec :
    (∀ (c : Character) (item : Item) (now : String),
      (c.add_item item now).updated_at = now) ∧
    (∀ (c : Character) (iid now : String),
      ((c.remove_item iid now).fst.isSome = true →
        (c.remove_item iid now).snd.updated_at = now) ∧
      ((c.remove_item iid now).fst = none → (c.remove_item iid now).snd = c)) ∧
    (∀ (m : CharacterManager) (cid : String),
      (save_character m cid).fst.characters = m.characters) := by
  refine ⟨fun c item now => rfl, fun c iid now => ?_, fun m cid => ?_⟩
  · unfold Character.remove_item
    cases h : removeFirst c.inventory iid with
    | none => exact ⟨by simp, fun _ => rfl⟩
    | some p =>
      obtain ⟨item, inv'⟩ := p
      exact ⟨fun _ => rfl, by simp⟩
  · unfold save_character
    cases lookupA m.characters cid <;> rfl

/-- Witness for the amended C3 on concrete data. -/
theorem updated_at_refresh_spec_witness :
    (sampleChar.add_item sampleItem2 "t9").updated_at = "t9" ∧
    (sampleChar.remove_item "item-1" "t9").snd.updated_at = "t9" ∧
    (sampleChar.remove_item "missing-id" "t9").snd = sampleChar ∧
    (save_character sampleManager "char-1").fst.characters
      = sampleManager.characters :=
  ⟨updated_at_refresh_spec.1 sampleChar sampleItem2 "t9",
   (updated_at_refresh_spec.2.1 sampleChar "item-1" "t9").1 (by decide),
   (updated_at_refresh_spec.2.1 sampleChar "missing-id" "t9").2 (by decide),
   updated_at_refresh_spec.2.2 sampleManager "char-1"⟩

/-! ## C6: delete_character -/

def orphanManager : CharacterManager :=
  { characters := [], files := [("ghost.json", .invalid)] }

/-- Counterexample to C6 as stated: for the id "ghost", which has a
backing file "ghost.json" but no in-memory entry, `delete_character`
returns false and leaves the backing file in place — the file is not
deleted even though it exists. -/
theorem delete_character_cex :
    (delete_character orphanManager "ghost").snd = false ∧
    lookupA (delete_character orphanManager "ghost").fst.files "ghost.json"
      = some .invalid :=
  ⟨rfl, rfl⟩

/-- C6 amended: `delete_character` returns true exactly when the
in-memory entry existed; in that case it removes the entry and deletes
the backing file `<id>.json` if that file exists (an absent backing file
is a guarded no-op, never an error); when no entry exists, the whole
manager state — any orphan backing file included — is unchanged.  The
hypotheses are the representation invariants of a Python dict and of a
directory listing: unique keys / unique file names. -/
theorem delete_character_spec (m : CharacterManager) (cid : String)
    (hkeys : (m.characters.map Prod.fst).Nodup)
    (hfiles : (m.files.map Prod.fst).Nodup) :
    ((delete_character m cid).snd = (lookupA m.characters cid).isSome) ∧
    ((lookupA m.characters cid).isSome = true →
      lookupA (delete_character m cid).fst.characters cid = none ∧
      lookupA (delete_character m cid).fst.files (cid ++ ".json") = none) ∧
    ((lookupA m.characters cid).isSome = false →
      (delete_character m cid).fst = m) := by
  unfold delete_character
  by_cases h : (lookupA m.characters cid).isSome = true
  · refine ⟨by simp [h], fun _ => ⟨?_, ?_⟩, by simp [h]⟩
    · simp only [h, if_true]
      exact lookupA_eraseA_self hkeys
    · simp only [h, if_true]
      exact lookupA_eraseA_self hfiles
  · simp only [Bool.not_eq_true] at h
    simp [h]

def sampleManagerFull : CharacterManager :=
  { characters := [("char-1", sampleChar)],
    files := [("char-1.json", .invalid)] }

/-- Witness for the amended C6: deleting the registered "char-1" returns
true and removes both the registry entry and the backing file. -/
theorem delete_character_spec_witness :
    (delete_character sampleManagerFull "char-1").snd = true ∧
    lookupA (delete_character sampleManagerFull "char-1").fst.characters "char-1"
      = none ∧
    lookupA (delete_character sampleManagerFull "char-1").fst.files "char-1.json"
      = none := by
  have h := delete_character_spec sampleManagerFull "char-1" (by decide) (by decide)
  have h2 := h.2.1 rfl
  exact ⟨h.1.trans rfl, h2.1, h2.2⟩

/-! ## C4: the registry key/id invariant over reachable states -/

/-- Every entry of the registry couples a key with a character carrying
that key as its id. -/
def RegistryKeysMatch (m : CharacterManager) : Prop :=
  ∀ p ∈ m.characters, p.fst = p.snd.id

theorem registryKeysMatch_step {m m' : CharacterManager}
    (h : RegistryKeysMatch m) (hs : ManagerStep m m') : RegistryKeysMatch m' := by
  cases hs with
  | create freshId nm gs now =>
    intro p hp
    simp only [create_character] at hp
    rcases mem_insertA hp with h' | h'
    · subst h'; rfl
    · exact h p h'
  | load path supply =>
    intro p hp
    unfold load_character at hp
    cases hf : lookupA m.files path with
    | none => rw [hf] at hp; exact h p hp
    | some fd =>
      cases fd with
      | invalid => rw [hf] at hp; exact h p hp
      | jsonContent j =>
        rw [hf] at hp
        cases hc : characterFromJson supply j with
        | none => simp only [hc] at hp; exact h p hp
        | some c =>
          simp only [hc] at hp
          rcases mem_insertA hp with h' | h'
          · subst h'; rfl
          · exact h p h'
  | save cid =>
    intro p hp
    unfold save_character at hp
    cases hl : lookupA m.characters cid with
    | none => rw [hl] at hp; exact h p hp
    | some c => rw [hl] at hp; exact h p hp
  | del cid =>
    intro p hp
    unfold delete_character at hp
    by_cases hd : (lookupA m.characters cid).isSome = true
    · simp only [hd, if_true, if_pos] at hp
      exact h p (mem_eraseA hp)
    · simp only [Bool.not_eq_true] at hd
      simp only [hd] at hp
      exact h p hp

theorem reachable_registryKeysMatch {m : CharacterManager}
    (hr : ReachableManager m) : RegistryKeysMatch m := by
  induction hr with
  | init fs => intro p hp; simp at hp
  | step hr' hs ih => exact registryKeysMatch_step ih hs

/-- C4: in every manager state reachable from a fresh manager (empty
registry, any pre-existing directory) by create_character,
load_character, save_character and delete_character calls, every key of
the `characters` registry equals the `id` field of the Character it maps
to. -/
theorem registry_key_eq_id {m : CharacterManager} (hr : ReachableManager m)
    (k : String) (c : Character)
    (hk : lookupA m.characters k = some c) : k = c.id :=
  reachable_registryKeysMatch hr (k, c) (lookupA_mem hk)

/-- Witness for C4: after one create_character on a fresh manager, the
key "u-1" equals the id of the character registered under it. -/
theorem registry_key_eq_id_witness :
    "u-1" = ((create_character { characters := [], files := [] }
      "u-1" "Bob" "Generic" "t0").snd).id :=
  registry_key_eq_id
    (ReachableManager.step (ReachableManager.init [])
      (ManagerStep.create _ "u-1" "Bob" "Generic" "t0"))
    "u-1" _ rfl

/-! ## Serialization round trip -/

theorem ofName_name (r : ItemRarity) : ItemRarity.ofName r.name = some r := by
  cases r <;> rfl

theorem parseStrings_map (l : List String) :
    parseStrings (l.map Json.jstr) = some l := by
  induction l with
  | nil => rfl
  | cons s rest ih => simp [parseStrings, ih]

theorem itemFromJson_itemToJson (fresh : String) (item : Item)
    (h : item.id ≠ "") : itemFromJson fresh (itemToJson item) = some item := by
  simp [itemFromJson, itemToJson, Json.getKey, lookupA, ofName_name,
    parseStrings_map, h]

theorem currencyFromJson_currencyToJson (cur : Currency) :
    currencyFromJson (currencyToJson cur) = some cur := by
  simp [currencyFromJson, currencyToJson, Json.getKey, lookupA]

theorem parseItems_map (supply : Nat → String) (items : List Item)
    (h : ∀ it ∈ items, it.id ≠ "") (i : Nat) :
    parseItems supply i (items.map itemToJson) = some items := by
  induction items generalizing i with
  | nil => rfl
  | cons item rest ih =>
    have h1 := h item (List.mem_cons_self _ _)
    simp [parseItems, itemFromJson_itemToJson (supply i) item h1,
      ih (fun it hit => h it (List.mem_cons_of_mem _ hit))]

/-- Deserializing the document `save_character` writes for a character
with the Python object invariant (non-empty ids, guaranteed by
`__post_init__`) reconstructs the character exactly, whatever fresh
uuids the supply would offer. -/
theorem characterFromJson_characterToJson (supply : Nat → String)
    (c : Character) (hid : c.id ≠ "")
    (hitems : ∀ it ∈ c.inventory, it.id ≠ "") :
    characterFromJson supply (characterToJson c) = some c := by
  simp [characterFromJson, characterToJson, Json.getKey, lookupA,
    parseItems_map supply c.inventory hitems 1,
    currencyFromJson_currencyToJson, hid]

/-- One save-then-load cycle on a registered character: the file
`<id>.json` is (re)written with the serialized document, the load parses
it back to exactly the same character and re-registers it. -/
theorem save_then_load (m : CharacterManager) (c : Character)
    (supply : Nat → String)
    (hreg : lookupA m.characters c.id = some c)
    (hid : c.id ≠ "") (hitems : ∀ it ∈ c.inventory, it.id ≠ "") :
    load_character (save_character m c.id).fst (c.id ++ ".json") supply =
      ({ characters := insertA m.characters c.id c,
         files := insertA m.files (c.id ++ ".json")
           (.jsonContent (characterToJson c)) }, some c) := by
  have h1 : (save_character m c.id).fst =
      { m with files := insertA m.files (c.id ++ ".json") (.jsonContent (characterToJson c)) } := by
    unfold save_character
    rw [hreg]
  rw [h1]
  unfold load_character
  simp only [lookupA_insertA_self,
    characterFromJson_characterToJson supply c hid hitems]

/-- C1: for a Character registered in a CharacterManager (every Python
`Character`/`Item` object has a non-empty id, which is the stated
well-formedness hypothesis), save followed by load returns a Character
equal to the original in every field, and so does a second save/load of
the result: `load(save(load(save(c)))) = c`, rarity tags and tag lists
included. -/
theorem save_load_roundtrip (m : CharacterManager) (c : Character)
    (supply supply2 : Nat → String)
    (hreg : lookupA m.characters c.id = some c)
    (hid : c.id ≠ "") (hitems : ∀ it ∈ c.inventory, it.id ≠ "") :
    (load_character (save_character m c.id).fst
      (c.id ++ ".json") supply).snd = some c ∧
    (load_character
      (save_character
        (load_character (save_character m c.id).fst
          (c.id ++ ".json") supply).fst c.id).fst
      (c.id ++ ".json") supply2).snd = some c := by
  have hA := save_then_load m c supply hreg hid hitems
  refine ⟨by rw [hA], ?_⟩
  have hreg2 : lookupA (insertA m.characters c.id c) c.id = some c :=
    lookupA_insertA_self _ _ _
  have hB := save_then_load
    { characters := insertA m.characters c.id c,
      files := insertA m.files (c.id ++ ".json")
        (.jsonContent (characterToJson c)) } c supply2 hreg2 hid hitems
  rw [hA]
  simp only
  rw [hB]

/-- Witness for C1: the double round trip on the sample character. -/
theorem save_load_roundtrip_witness :
    (load_character (save_character sampleManager sampleChar.id).fst
      (sampleChar.id ++ ".json") (fun _ => "w")).snd = some sampleChar ∧
    (load_character
      (save_character
        (load_character (save_character sampleManager sampleChar.id).fst
          (sampleChar.id ++ ".json") (fun _ => "w")).fst sampleChar.id).fst
      (sampleChar.id ++ ".json") (fun _ => "w2")).snd = some sampleChar :=
  save_load_roundtrip sampleManager sampleChar (fun _ => "w") (fun _ => "w2")
    rfl (by decide) (by decide)

/-! ## C5: load_all_characters over a mixed directory -/

/-- A load that fails — missing file, unparseable text or structural
error — leaves the manager untouched: every `none` branch of
`load_character` returns `m` itself. -/
theorem load_character_none_frame {m : CharacterManager} {path : String}
    {supply : Nat → String}
    (h : (load_character m path supply).snd = none) :
    (load_character m path supply).fst = m := by
  unfold load_character at h ⊢
  split at h
  next j heq =>
    split at h
    next c heq2 => simp at h
    next heq2 => rfl
  next x heq => rfl

/-- C5: over a save directory holding exactly one valid character JSON
file and one corrupt `.json` file — corrupt meaning unparseable text or
a document that parses but fails structural reconstruction — in either
order, and whatever the registry held before, `load_all_characters`
returns exactly the one successfully loaded Character; the model
function is total, so nothing is raised.  The last three conjuncts prove
the general clause on the directory-scan loop: a file without the
`.json` suffix is never attempted, a failing `load_character` is
silently skipped (the manager unchanged), and a successful one
contributes exactly its Character, in listing order. -/
theorem load_all_one_valid_one_corrupt (a b : String) (j : Json)
    (bad : FileData) (c : Character) (supply : Nat → Nat → String)
    (chars0 : List (String × Character)) (hab : a ≠ b)
    (ha : strEndsWith a ".json" = true) (hb : strEndsWith b ".json" = true) :
    (characterFromJson (supply 0) j = some c →
      (bad = .invalid ∨
        ∃ j', bad = .jsonContent j' ∧ characterFromJson (supply 1) j' = none) →
      (load_all_characters
        { characters := chars0,
          files := [(a, .jsonContent j), (b, bad)] } supply).snd = [c]) ∧
    (characterFromJson (supply 1) j = some c →
      (bad = .invalid ∨
        ∃ j', bad = .jsonContent j' ∧ characterFromJson (supply 0) j' = none) →
      (load_all_characters
        { characters := chars0,
          files := [(a, bad), (b, .jsonContent j)] } supply).snd = [c]) ∧
    (∀ (m : CharacterManager) (i : Nat) (fname : String) (rest : List String),
      strEndsWith fname ".json" = false →
      loadAllGo supply i m (fname :: rest) = loadAllGo supply (i + 1) m rest) ∧
    (∀ (m : CharacterManager) (i : Nat) (fname : String) (rest : List String),
      (load_character m fname (supply i)).snd = none →
      loadAllGo supply i m (fname :: rest) = loadAllGo supply (i + 1) m rest) ∧
    (∀ (m : CharacterManager) (i : Nat) (fname : String) (rest : List String)
      (c' : Character),
      strEndsWith fname ".json" = true →
      (load_character m fname (supply i)).snd = some c' →
      loadAllGo supply i m (fname :: rest) =
        ((loadAllGo supply (i + 1)
            (load_character m fname (supply i)).fst rest).fst,
         c' :: (loadAllGo supply (i + 1)
            (load_character m fname (supply i)).fst rest).snd)) := by
  refine ⟨?_, ?_, ?_, ?_, ?_⟩
  · intro hj hbad
    rcases hbad with hbad | ⟨j', hbad, hj'⟩
    · subst hbad
      simp [load_all_characters, loadAllGo, load_character, lookupA,
        ha, hb, hab, hj]
    · subst hbad
      simp [load_all_characters, loadAllGo, load_character, lookupA,
        ha, hb, hab, hj, hj']
  · intro hj hbad
    rcases hbad with hbad | ⟨j', hbad, hj'⟩
    · subst hbad
      simp [load_all_characters, loadAllGo, load_character, lookupA,
        ha, hb, hab, hj]
    · subst hbad
      simp [load_all_characters, loadAllGo, load_character, lookupA,
        ha, hb, hab, hj, hj']
  · intro m i fname rest hsuf
    simp [loadAllGo, hsuf]
  · intro m i fname rest hnone
    by_cases hsuf : strEndsWith fname ".json" = true
    · have hframe := load_character_none_frame hnone
      simp [loadAllGo, hsuf, hnone, hframe]
    · simp only [Bool.not_eq_true] at hsuf
      simp [loadAllGo, hsuf]
  · intro m i fname rest c' hsuf hsome
    simp [loadAllGo, hsuf, hsome]

/-- Witness for C5: a directory with the serialized sample character and
one structurally invalid document (an empty JSON object, which parses
but fails reconstruction) yields exactly the sample character; a second
application exercises the unparseable-text case. -/
theorem load_all_one_valid_one_corrupt_witness :
    (load_all_characters
      { characters := [],
        files := [("a.json", .jsonContent (characterToJson sampleChar)),
                  ("bad.json", .jsonContent (.jobj []))] } (fun _ _ => "w")).snd
      = [sampleChar] ∧
    (load_all_characters
      { characters := [],
        files := [("a.json", .jsonContent (characterToJson sampleChar)),
                  ("bad.json", .invalid)] } (fun _ _ => "w")).snd
      = [sampleChar] :=
  ⟨(load_all_one_valid_one_corrupt "a.json" "bad.json"
      (characterToJson sampleChar) (.jsonContent (.jobj [])) sampleChar
      (fun _ _ => "w") [] (by decide) (by decide) (by decide)).1
    (characterFromJson_characterToJson _ sampleChar (by decide) (by decide))
    (Or.inr ⟨.jobj [], rfl, rfl⟩),
   (load_all_one_valid_one_corrupt "a.json" "bad.json"
      (characterToJson sampleChar) .invalid sampleChar
      (fun _ _ => "w") [] (by decide) (by decide) (by decide)).1
    (characterFromJson_characterToJson _ sampleChar (by decide) (by decide))
    (Or.inl rfl)⟩

end Tabletop
